import Mathlib

/-!
Verification development for the blosh wire-format decoding library
(Rust, nom 3 parser combinators).  The Rust sources under src/ are
shallowly embedded here: byte buffers become `List Nat` (each element a
byte value), nom's `IResult` becomes `PResult`, and Rust slice indexing
that can panic is modelled with an explicit `.panic` outcome.  Machine
integers are modelled as `Nat` with explicit `% 2^w` at the points where
the Rust code performs wrapping `u8` arithmetic.
-/

set_option maxRecDepth 10000

/-- nom's `IResult`, extended with a `panic` case modelling Rust slice
indexing out of range (`&bs[i..]` with `i > bs.len()` aborts the process).
`done rest value` carries the unconsumed input and the parsed value. -/
inductive PResult (α : Type) where
  | done : List Nat → α → PResult α
  | incomplete : PResult α
  | error : PResult α
  | panic : PResult α
  deriving Repr, DecidableEq

/-- Sequencing of parse steps, as in nom's `do_parse!`: failures
propagate, `done` feeds the rest of the input to the continuation. -/
def pbind {α β : Type} (r : PResult α) (f : List Nat → α → PResult β) : PResult β :=
  match r with
  | .done rest a => f rest a
  | .incomplete => .incomplete
  | .error => .error
  | .panic => .panic

/-- nom's `be_u8`: one byte, network order. -/
def beU8 (bs : List Nat) : PResult Nat :=
  match bs with
  | [] => .incomplete
  | b :: rest => .done rest b

/-- nom's `be_u16`: two bytes, big endian. -/
def beU16 (bs : List Nat) : PResult Nat :=
  match bs with
  | b1 :: b2 :: rest => .done rest (256 * b1 + b2)
  | _ => .incomplete

/-- nom's `be_u32`: four bytes, big endian. -/
def beU32 (bs : List Nat) : PResult Nat :=
  match bs with
  | b1 :: b2 :: b3 :: b4 :: rest =>
      .done rest (16777216 * b1 + 65536 * b2 + 256 * b3 + b4)
  | _ => .incomplete

/-- nom's `take!(n)`: exactly `n` bytes or `Incomplete`. -/
def takeBytes (n : Nat) (bs : List Nat) : PResult (List Nat) :=
  if n ≤ bs.length then .done (bs.drop n) (bs.take n) else .incomplete

/-- nom's `count!(p, n)`: exactly `n` repetitions of `p`; any failure of a
single repetition fails the whole combinator. -/
def countP {α : Type} (p : List Nat → PResult α) : Nat → List Nat → PResult (List α)
  | 0, bs => .done bs []
  | n + 1, bs =>
    match p bs with
    | .done rest a => pbind (countP p n rest) (fun rest2 as => .done rest2 (a :: as))
    | .incomplete => .incomplete
    | .error => .error
    | .panic => .panic

/-! ## DNS data model (src/dns.rs) -/

/-- src/dns.rs `QR`. -/
inductive QR where
  | query
  | response
  deriving Repr, DecidableEq

/-- src/dns.rs `QR::from`. -/
def QR.from (i : Nat) : Option QR :=
  match i with
  | 0 => some .query
  | 1 => some .response
  | _ => none

/-- src/dns.rs `Opcode`. -/
inductive Opcode where
  | query
  | inverseQuery
  | status
  | reserved : Nat → Opcode
  deriving Repr, DecidableEq

/-- src/dns.rs `Opcode::from`. -/
def Opcode.from (i : Nat) : Option Opcode :=
  match i with
  | 0 => some .query
  | 1 => some .inverseQuery
  | 2 => some .status
  | j => if j < 16 then some (.reserved j) else none

/-- src/dns.rs `Rcode`. -/
inductive Rcode where
  | noError
  | formatError
  | serverFailure
  | nameError
  | notImplemented
  | reserved : Nat → Rcode
  deriving Repr, DecidableEq

/-- src/dns.rs `Rcode::from`. -/
def Rcode.from (i : Nat) : Option Rcode :=
  match i with
  | 0 => some .noError
  | 1 => some .formatError
  | 2 => some .serverFailure
  | 3 => some .nameError
  | 4 => some .notImplemented
  | j => if j < 15 then some (.reserved j) else none

/-- src/dns.rs `Header`. -/
structure Header where
  id : Nat
  qr : QR
  opcode : Opcode
  aa : Bool
  tc : Bool
  rd : Bool
  ra : Bool
  rcode : Rcode
  qdcount : Nat
  ancount : Nat
  nscount : Nat
  arcount : Nat
  deriving Repr, DecidableEq

/-- src/dns.rs `Bits`: the eight bit-fields of the header flag word. -/
structure Bits where
  qr : Nat
  opcode : Nat
  aa : Nat
  tc : Nat
  rd : Nat
  ra : Nat
  rcode : Nat
  deriving Repr, DecidableEq

/-- src/dns.rs `RawHeader`. -/
structure RawHeader where
  id : Nat
  fields : Bits
  qdcount : Nat
  ancount : Nat
  nscount : Nat
  arcount : Nat
  deriving Repr, DecidableEq

/-- src/dns.rs `Header::from`. -/
def Header.from (raw : RawHeader) : Option Header :=
  match QR.from raw.fields.qr, Opcode.from raw.fields.opcode, Rcode.from raw.fields.rcode with
  | some qr, some opcode, some rcode =>
      some { id := raw.id, qr := qr, opcode := opcode,
             aa := raw.fields.aa &&& 1 == 1, tc := raw.fields.tc &&& 1 == 1,
             rd := raw.fields.rd &&& 1 == 1, ra := raw.fields.ra &&& 1 == 1,
             rcode := rcode, qdcount := raw.qdcount, ancount := raw.ancount,
             nscount := raw.nscount, arcount := raw.arcount }
  | _, _, _ => none

/-- A label is a byte view, src/dns.rs `type Label<'a> = &'a [u8]`. -/
abbrev Label := List Nat

/-- src/dns.rs `DomainName`. -/
inductive DomainName where
  | labels : List Label → DomainName
  | pointer : Nat → DomainName
  | labelWithPointer : List Label → Nat → DomainName
  deriving Repr, DecidableEq

/-- src/dns.rs `label`: a length byte verified `< 0b11000000`, then that
many raw bytes. -/
def label (bs : List Nat) : PResult Label :=
  match bs with
  | [] => .incomplete
  | b :: rest =>
    if b < 0xC0 then
      if b ≤ rest.length then .done (rest.drop b) (rest.take b) else .incomplete
    else .error

/-- src/dns.rs `pointer`: a big-endian u16 verified strictly greater than
`0b11000000 << 8`, with the top two bits masked off. -/
def pointer (bs : List Nat) : PResult DomainName :=
  match bs with
  | b1 :: b2 :: rest =>
    if 256 * b1 + b2 > 0xC000 then .done rest (.pointer ((256 * b1 + b2) &&& 0x3FFF))
    else .error
  | _ => .incomplete

/-- Loop body of src/dns.rs `labels` (`many_till!(label, char!(0))`):
the terminator is tried first each iteration; a successful `label` step
always consumes at least one byte, so fuel `bs.length + 1` is enough. -/
def labelsGo : Nat → List Nat → PResult (List Label)
  | 0, _ => .error
  | fuel + 1, bs =>
    match bs with
    | [] => .incomplete
    | 0 :: rest => .done rest []
    | _ =>
      match label bs with
      | .done rest l => pbind (labelsGo fuel rest) (fun rest2 ls => .done rest2 (l :: ls))
      | .incomplete => .incomplete
      | .error => .error
      | .panic => .panic

/-- src/dns.rs `labels`: a zero-terminated label list. -/
def labelsP (bs : List Nat) : PResult DomainName :=
  pbind (labelsGo (bs.length + 1) bs) (fun rest ls => .done rest (.labels ls))

/-- Loop body of src/dns.rs `label_with_pointer`
(`many_till!(label, pointer)`): `pointer` is tried first each iteration.
A `pointer` success that is not a `Pointer` value is unreachable
(modelled as `.error`, mirroring the `unreachable!`). -/
def lwpGo : Nat → List Nat → PResult (List Label × Nat)
  | 0, _ => .error
  | fuel + 1, bs =>
    match pointer bs with
    | .done rest d =>
      match d with
      | .pointer off => .done rest ([], off)
      | _ => .error
    | _ =>
      match label bs with
      | .done rest l =>
          pbind (lwpGo fuel rest) (fun rest2 p => .done rest2 (l :: p.1, p.2))
      | .incomplete => .incomplete
      | .error => .error
      | .panic => .panic

/-- src/dns.rs `label_with_pointer`. -/
def labelWithPointer (bs : List Nat) : PResult DomainName :=
  pbind (lwpGo (bs.length + 1) bs) (fun rest p => .done rest (.labelWithPointer p.1 p.2))

/-- src/dns.rs `domain_name`: `alt!(labels | pointer | label_with_pointer)`.
nom's `alt!` moves to the next branch only on `Error`; an `Incomplete`
branch result is returned immediately. -/
def domainName (bs : List Nat) : PResult DomainName :=
  match labelsP bs with
  | .done rest d => .done rest d
  | .incomplete => .incomplete
  | .panic => .panic
  | .error =>
    match pointer bs with
    | .done rest d => .done rest d
    | .incomplete => .incomplete
    | .panic => .panic
    | .error => labelWithPointer bs

/-! ## DNS record types and RDATA (src/dns.rs) -/

/-- src/dns.rs `Type` (the RR type enum; renamed since `Type` is a Lean
keyword). -/
inductive DnsType where
  | a
  | ns
  | md
  | mf
  | cname
  | soa
  | mb
  | mg
  | mr
  | null
  | wks
  | ptr
  | hinfo
  | minfo
  | mx
  | txt
  | aaaa
  deriving Repr, DecidableEq

/-- src/dns.rs `Type::from`. -/
def DnsType.from (v : Nat) : Option DnsType :=
  match v with
  | 1 => some .a
  | 2 => some .ns
  | 3 => some .md
  | 4 => some .mf
  | 5 => some .cname
  | 6 => some .soa
  | 7 => some .mb
  | 8 => some .mg
  | 9 => some .mr
  | 10 => some .null
  | 11 => some .wks
  | 12 => some .ptr
  | 13 => some .hinfo
  | 14 => some .minfo
  | 15 => some .mx
  | 16 => some .txt
  | 28 => some .aaaa
  | _ => none

/-- src/dns.rs `parse_type`: `map_opt!(be_u16, Type::from)`. -/
def parseType (bs : List Nat) : PResult DnsType :=
  pbind (beU16 bs) fun rest v =>
    match DnsType.from v with
    | some t => .done rest t
    | none => .error

/-- src/dns.rs `Class`. -/
inductive DnsClass where
  | inet
  | cs
  | ch
  | hs
  deriving Repr, DecidableEq

/-- src/dns.rs `Class::from` (`IN` is spelled `inet` here). -/
def DnsClass.from (v : Nat) : Option DnsClass :=
  match v with
  | 1 => some .inet
  | 2 => some .cs
  | 3 => some .ch
  | 4 => some .hs
  | _ => none

/-- src/dns.rs `parse_class`. -/
def parseClass (bs : List Nat) : PResult DnsClass :=
  pbind (beU16 bs) fun rest v =>
    match DnsClass.from v with
    | some c => .done rest c
    | none => .error

/-- src/dns.rs `Qtype`. -/
inductive Qtype where
  | type : DnsType → Qtype
  | axfr
  | mailB
  | mailA
  | wildcard
  deriving Repr, DecidableEq

/-- src/dns.rs `Qtype::from`. -/
def Qtype.from (v : Nat) : Option Qtype :=
  match DnsType.from v with
  | some typ => some (.type typ)
  | none =>
    match v with
    | 252 => some .axfr
    | 253 => some .mailB
    | 254 => some .mailA
    | 255 => some .wildcard
    | _ => none

/-- src/dns.rs `qtype`. -/
def qtype (bs : List Nat) : PResult Qtype :=
  pbind (beU16 bs) fun rest v =>
    match Qtype.from v with
    | some q => .done rest q
    | none => .error

/-- src/dns.rs `Qclass`. -/
inductive Qclass where
  | cls : DnsClass → Qclass
  | wildcard
  deriving Repr, DecidableEq

/-- src/dns.rs `Qclass::from`. -/
def Qclass.from (v : Nat) : Option Qclass :=
  match DnsClass.from v with
  | some c => some (.cls c)
  | none => if v = 255 then some .wildcard else none

/-- src/dns.rs `qclass`. -/
def qclass (bs : List Nat) : PResult Qclass :=
  pbind (beU16 bs) fun rest v =>
    match Qclass.from v with
    | some q => .done rest q
    | none => .error

/-- src/dns.rs `Query` (`Qname` is a synonym of `DomainName`). -/
structure Query where
  qname : DomainName
  qtype : Qtype
  qclass : Qclass
  deriving Repr, DecidableEq

/-- src/dns.rs `query`. -/
def query (bs : List Nat) : PResult Query :=
  pbind (domainName bs) fun bs1 qn =>
  pbind (qtype bs1) fun bs2 qt =>
  pbind (qclass bs2) fun bs3 qc =>
  .done bs3 { qname := qn, qtype := qt, qclass := qc }

/-- src/dns.rs `CharacterString`. -/
structure CharacterString where
  data : List Nat
  deriving Repr, DecidableEq

/-- src/dns.rs `parse_char_string`: a length byte then that many bytes. -/
def parseCharString (bs : List Nat) : PResult CharacterString :=
  pbind (beU8 bs) fun rest len =>
  pbind (takeBytes len rest) fun rest2 s =>
  .done rest2 { data := s }

/-- src/dns.rs `parse_txt`: `many1!(parse_char_string)`.  nom 3's `many1`
stops successfully at end of input or when an iteration errors, and
propagates `Incomplete`; each successful `parse_char_string` consumes at
least its length byte, so fuel `bs.length + 1` is enough. -/
def parseTxtGo : Nat → List Nat → PResult (List CharacterString)
  | 0, _ => .error
  | fuel + 1, bs =>
    if bs.length = 0 then .done bs []
    else
      match parseCharString bs with
      | .error => .done bs []
      | .incomplete => .incomplete
      | .panic => .panic
      | .done rest c =>
          pbind (parseTxtGo fuel rest) (fun rest2 cs => .done rest2 (c :: cs))

/-- src/dns.rs `parse_txt`: at least one character string. -/
def parseTxt (bs : List Nat) : PResult (List CharacterString) :=
  match parseCharString bs with
  | .error => .error
  | .incomplete => .incomplete
  | .panic => .panic
  | .done rest c =>
      pbind (parseTxtGo (rest.length + 1) rest) (fun rest2 cs => .done rest2 (c :: cs))

/-- src/dns.rs `Hinfo`. -/
structure Hinfo where
  cpu : CharacterString
  os : CharacterString
  deriving Repr, DecidableEq

/-- src/dns.rs `hinfo` (named `hinfoP` to avoid clashing with the `Rdata`
constructor). -/
def hinfoP (bs : List Nat) : PResult Hinfo :=
  pbind (parseCharString bs) fun bs1 cpu =>
  pbind (parseCharString bs1) fun bs2 os =>
  .done bs2 { cpu := cpu, os := os }

/-- src/dns.rs `Minfo`. -/
structure Minfo where
  rmailbox : DomainName
  emailbox : DomainName
  deriving Repr, DecidableEq

/-- src/dns.rs `minfo` (named `minfoP` to avoid clashing with the `Rdata`
constructor). -/
def minfoP (bs : List Nat) : PResult Minfo :=
  pbind (domainName bs) fun bs1 rbox =>
  pbind (domainName bs1) fun bs2 ebox =>
  .done bs2 { rmailbox := rbox, emailbox := ebox }

/-- src/dns.rs `MX`. -/
structure MX where
  preference : Nat
  exchange : DomainName
  deriving Repr, DecidableEq

/-- src/dns.rs `parse_mx`. -/
def parseMx (bs : List Nat) : PResult MX :=
  pbind (beU16 bs) fun bs1 pref =>
  pbind (domainName bs1) fun bs2 exch =>
  .done bs2 { preference := pref, exchange := exch }

/-- src/dns.rs `Soa`. -/
structure Soa where
  mname : DomainName
  rname : DomainName
  serial : Nat
  refresh : Nat
  retry : Nat
  expire : Nat
  minimum : Nat
  deriving Repr, DecidableEq

/-- src/dns.rs `parse_soa`. -/
def parseSoa (bs : List Nat) : PResult Soa :=
  pbind (domainName bs) fun bs1 mname =>
  pbind (domainName bs1) fun bs2 rname =>
  pbind (beU32 bs2) fun bs3 serial =>
  pbind (beU32 bs3) fun bs4 refresh =>
  pbind (beU32 bs4) fun bs5 retry =>
  pbind (beU32 bs5) fun bs6 expire =>
  pbind (beU32 bs6) fun bs7 minimum =>
  .done bs7 { mname := mname, rname := rname, serial := serial, refresh := refresh,
              retry := retry, expire := expire, minimum := minimum }

/-- src/dns.rs `Wks`.  The source reverses the four address bytes. -/
structure Wks where
  address : List Nat
  protocol : Nat
  bitmap : List Nat
  deriving Repr, DecidableEq

/-- src/dns.rs `parse_wks`: four address bytes (stored reversed), the
protocol byte, and `rest` as the bitmap. -/
def parseWks (bs : List Nat) : PResult Wks :=
  pbind (takeBytes 4 bs) fun bs1 addr =>
  pbind (beU8 bs1) fun bs2 protocol =>
  .done [] { address := addr.reverse, protocol := protocol, bitmap := bs2 }

/-- src/dns.rs `Rdata`. -/
inductive Rdata where
  | cname : DomainName → Rdata
  | hinfo : Hinfo → Rdata
  | mb : DomainName → Rdata
  | md : DomainName → Rdata
  | mf : DomainName → Rdata
  | mg : DomainName → Rdata
  | minfo : Minfo → Rdata
  | mr : DomainName → Rdata
  | mx : MX → Rdata
  | null : List Nat → Rdata
  | ns : DomainName → Rdata
  | ptr : DomainName → Rdata
  | soa : Soa → Rdata
  | txt : List CharacterString → Rdata
  | a : List Nat → Rdata
  | wks : Wks → Rdata
  | aaaa : List Nat → Rdata
  | unknown : List Nat → Rdata
  deriving Repr, DecidableEq

/-- Outcome of a computation that can abort the process, used for
`IResult::to_result` (which panics on `Incomplete` in nom 3) and for the
slice indexing in the pointer-resolution pass.  `outOfFuel` marks a
modelled loop that exceeded its fuel (i.e. nontermination of the Rust
loop it embeds). -/
inductive DRes (α : Type) where
  | ok : α → DRes α
  | panic : DRes α
  | outOfFuel : DRes α
  deriving Repr, DecidableEq

/-- nom 3 `IResult::to_result().ok()`: `Done` keeps only the output byte
(discarding any unconsumed input), `Error` becomes `None`, and
`Incomplete` panics. -/
def toResultOk {α : Type} (r : PResult α) : DRes (Option α) :=
  match r with
  | .done _ a => .ok (some a)
  | .error => .ok none
  | .incomplete => .panic
  | .panic => .panic

/-- src/dns.rs `Rdata::from`: dispatch on the record type over the
exact-`rdlength` span. -/
def Rdata.from (typ : DnsType) (raw : List Nat) : DRes (Option Rdata) :=
  match typ with
  | .a => .ok (if 4 ≤ raw.length then some (.a (raw.take 4)) else none)
  | .ns =>
    match toResultOk (domainName raw) with
    | .ok r => .ok (r.map .ns)
    | .panic => .panic
    | .outOfFuel => .outOfFuel
  | .md =>
    match toResultOk (domainName raw) with
    | .ok r => .ok (r.map .md)
    | .panic => .panic
    | .outOfFuel => .outOfFuel
  | .mf =>
    match toResultOk (domainName raw) with
    | .ok r => .ok (r.map .mf)
    | .panic => .panic
    | .outOfFuel => .outOfFuel
  | .cname =>
    match toResultOk (domainName raw) with
    | .ok r => .ok (r.map .cname)
    | .panic => .panic
    | .outOfFuel => .outOfFuel
  | .soa =>
    match toResultOk (parseSoa raw) with
    | .ok r => .ok (r.map .soa)
    | .panic => .panic
    | .outOfFuel => .outOfFuel
  | .mb =>
    match toResultOk (domainName raw) with
    | .ok r => .ok (r.map .mb)
    | .panic => .panic
    | .outOfFuel => .outOfFuel
  | .mg =>
    match toResultOk (domainName raw) with
    | .ok r => .ok (r.map .mg)
    | .panic => .panic
    | .outOfFuel => .outOfFuel
  | .mr =>
    match toResultOk (domainName raw) with
    | .ok r => .ok (r.map .mr)
    | .panic => .panic
    | .outOfFuel => .outOfFuel
  | .null => .ok (some (.null raw))
  | .wks =>
    match toResultOk (parseWks raw) with
    | .ok r => .ok (r.map .wks)
    | .panic => .panic
    | .outOfFuel => .outOfFuel
  | .ptr =>
    match toResultOk (domainName raw) with
    | .ok r => .ok (r.map .ptr)
    | .panic => .panic
    | .outOfFuel => .outOfFuel
  | .hinfo =>
    match toResultOk (hinfoP raw) with
    | .ok r => .ok (r.map .hinfo)
    | .panic => .panic
    | .outOfFuel => .outOfFuel
  | .minfo =>
    match toResultOk (minfoP raw) with
    | .ok r => .ok (r.map .minfo)
    | .panic => .panic
    | .outOfFuel => .outOfFuel
  | .mx =>
    match toResultOk (parseMx raw) with
    | .ok r => .ok (r.map .mx)
    | .panic => .panic
    | .outOfFuel => .outOfFuel
  | .txt =>
    match toResultOk (parseTxt raw) with
    | .ok r => .ok (r.map .txt)
    | .panic => .panic
    | .outOfFuel => .outOfFuel
  | .aaaa => .ok (if 16 ≤ raw.length then some (.aaaa (raw.take 16)) else none)

/-- src/dns.rs `ResourceRecord` (`cls` stands in for the Rust field
`class`, a Lean keyword). -/
structure ResourceRecord where
  name : DomainName
  typ : DnsType
  cls : DnsClass
  ttl : Nat
  rdata : Rdata
  deriving Repr, DecidableEq

/-- src/dns.rs `resource_record`: name, type, class, ttl, an rdlength
field, then `map_opt!(take!(rdlen), |data| Rdata::from(typ, data))`. -/
def resourceRecord (bs : List Nat) : PResult ResourceRecord :=
  pbind (domainName bs) fun bs1 name =>
  pbind (parseType bs1) fun bs2 typ =>
  pbind (parseClass bs2) fun bs3 cls =>
  pbind (beU32 bs3) fun bs4 ttl =>
  pbind (beU16 bs4) fun bs5 rdlen =>
  pbind (takeBytes rdlen bs5) fun bs6 data =>
  match Rdata.from typ data with
  | .ok (some rd) => .done bs6 { name := name, typ := typ, cls := cls, ttl := ttl, rdata := rd }
  | .ok none => .error
  | .panic => .panic
  | .outOfFuel => .error

/-- src/dns.rs `parse_dns_header`: id, the 16-bit flag word decoded as
bit fields (`tag_bits!` forcing the three reserved bits to zero), the
four counts, then `Header::from` via `map_opt!`. -/
def parseDnsHeader (bs : List Nat) : PResult Header :=
  pbind (beU16 bs) fun bs1 id =>
  match bs1 with
  | b1 :: b2 :: bs2 =>
    if (b2 >>> 4) &&& 7 = 0 then
      let fields : Bits :=
        { qr := b1 >>> 7, opcode := (b1 >>> 3) &&& 15, aa := (b1 >>> 2) &&& 1,
          tc := (b1 >>> 1) &&& 1, rd := b1 &&& 1, ra := b2 >>> 7, rcode := b2 &&& 15 }
      pbind (beU16 bs2) fun bs3 qd =>
      pbind (beU16 bs3) fun bs4 an =>
      pbind (beU16 bs4) fun bs5 ns =>
      pbind (beU16 bs5) fun bs6 ar =>
      match Header.from { id := id, fields := fields, qdcount := qd, ancount := an,
                          nscount := ns, arcount := ar } with
      | some h => .done bs6 h
      | none => .error
    else .error
  | _ => .incomplete

/-- src/dns.rs `Message`. -/
structure Message where
  header : Header
  questions : List Query
  answers : List ResourceRecord
  authorities : List ResourceRecord
  additional : List ResourceRecord
  deriving Repr, DecidableEq

/-- src/dns.rs `parse_dns_message`: header, then four counted sections. -/
def parseDnsMessage (bs : List Nat) : PResult Message :=
  pbind (parseDnsHeader bs) fun bs1 header =>
  pbind (countP query header.qdcount bs1) fun bs2 questions =>
  pbind (countP resourceRecord header.ancount bs2) fun bs3 answers =>
  pbind (countP resourceRecord header.nscount bs3) fun bs4 authorities =>
  pbind (countP resourceRecord header.arcount bs4) fun bs5 additional =>
  .done bs5 { header := header, questions := questions, answers := answers,
              authorities := authorities, additional := additional }

/-! ## Pointer-resolution pass (src/dns.rs `parse_dns_message_full`) -/

/-- Sequencing in the `DRes` outcome monad: panics and fuel exhaustion
propagate. -/
def DRes.bind {α β : Type} (r : DRes α) (f : α → DRes β) : DRes β :=
  match r with
  | .ok a => f a
  | .panic => .panic
  | .outOfFuel => .outOfFuel

/-- The per-message memo dictionary, src `HashMap<u16, DomainName>`;
modelled as an association list where insertion prepends (the first hit
wins on lookup, so insertion overwrites). -/
abbrev Dict := List (Nat × DomainName)

/-- `dict.contains_key(off)` / `dict[off]` combined. -/
def dictLookup (dict : Dict) (k : Nat) : Option DomainName :=
  match dict with
  | [] => none
  | (k2, v) :: rest => if k = k2 then some v else dictLookup rest k

/-- `dict.insert(off, v)`. -/
def dictInsert (dict : Dict) (k : Nat) (v : DomainName) : Dict := (k, v) :: dict

/-- src/dns.rs `deref_helper`: one dereference step.  For a pointer it
consults the memo dictionary, else re-enters `domain_name` at the
absolute offset; slicing `&bytestr[off..]` panics when `off` exceeds the
buffer length.  For `LabelWithPointer` the dereferenced value must be a
pure `Labels` to be spliced, otherwise the step yields `None` (the memo
insertion still happens when the value came from a fresh parse). -/
def derefHelper (domain : DomainName) (dict : Dict) (bytestr : List Nat) :
    DRes (Option DomainName × Dict) :=
  match domain with
  | .pointer off =>
    match dictLookup dict off with
    | some v => .ok (some v, dict)
    | none =>
      if off ≤ bytestr.length then
        match domainName (bytestr.drop off) with
        | .done _ d => .ok (some d, dictInsert dict off d)
        | _ => .ok (none, dict)
      else .panic
  | .labelWithPointer list off =>
    match dictLookup dict off with
    | some toAdd =>
      match toAdd with
      | .labels ls2 => .ok (some (.labels (list ++ ls2)), dict)
      | _ => .ok (none, dict)
    | none =>
      if off ≤ bytestr.length then
        match domainName (bytestr.drop off) with
        | .done _ d =>
          match d with
          | .labels ls2 => .ok (some (.labels (list ++ ls2)), dictInsert dict off d)
          | _ => .ok (none, dictInsert dict off d)
        | _ => .ok (none, dict)
      else .panic
  | .labels l => .ok (some (.labels l), dict)

/-- The `recurse` predicate inside src/dns.rs `domain_deref`: keep
looping while the current value is present and not yet `Labels`. -/
def shouldRecurse : Option DomainName → Bool
  | some (.labels _) => false
  | some _ => true
  | none => false

/-- The `while should_recurse` loop of src/dns.rs `domain_deref`,
with explicit fuel: `outOfFuel` marks a loop that runs unboundedly. -/
def domainDerefLoop (bytestr : List Nat) : Nat → Option DomainName → Dict →
    DRes (Option DomainName × Dict)
  | 0, out, dict => if shouldRecurse out then .outOfFuel else .ok (out, dict)
  | fuel + 1, out, dict =>
    if shouldRecurse out then
      match out with
      | some d =>
        DRes.bind (derefHelper d dict bytestr) fun r =>
          domainDerefLoop bytestr fuel r.1 r.2
      | none => domainDerefLoop bytestr fuel none dict
    else .ok (out, dict)

/-- src/dns.rs `domain_deref`: one helper step, then the chase loop. -/
def domainDeref (fuel : Nat) (domain : DomainName) (dict : Dict) (bytestr : List Nat) :
    DRes (Option DomainName × Dict) :=
  DRes.bind (derefHelper domain dict bytestr) fun r =>
    domainDerefLoop bytestr fuel r.1 r.2

/-- The `match domain_deref { Some => replace, None => keep }` pattern
used for every name field in src/dns.rs `fix_record`. -/
def fixName (fuel : Nat) (bytestr : List Nat) (d : DomainName) (dict : Dict) :
    DRes (DomainName × Dict) :=
  match domainDeref fuel d dict bytestr with
  | .ok (some nd, dict2) => .ok (nd, dict2)
  | .ok (none, dict2) => .ok (d, dict2)
  | .panic => .panic
  | .outOfFuel => .outOfFuel

/-- The rdata arm of src/dns.rs `fix_record`: the eight name-valued
variants, `Minfo`'s two mailboxes, `MX`'s exchange and `SOA`'s
mname/rname are dereferenced; every other variant is untouched. -/
def fixRdata (fuel : Nat) (bytestr : List Nat) (rd : Rdata) (dict : Dict) :
    DRes (Rdata × Dict) :=
  match rd with
  | .cname d => DRes.bind (fixName fuel bytestr d dict) fun r => .ok (.cname r.1, r.2)
  | .mb d => DRes.bind (fixName fuel bytestr d dict) fun r => .ok (.mb r.1, r.2)
  | .md d => DRes.bind (fixName fuel bytestr d dict) fun r => .ok (.md r.1, r.2)
  | .mf d => DRes.bind (fixName fuel bytestr d dict) fun r => .ok (.mf r.1, r.2)
  | .mg d => DRes.bind (fixName fuel bytestr d dict) fun r => .ok (.mg r.1, r.2)
  | .mr d => DRes.bind (fixName fuel bytestr d dict) fun r => .ok (.mr r.1, r.2)
  | .ns d => DRes.bind (fixName fuel bytestr d dict) fun r => .ok (.ns r.1, r.2)
  | .ptr d => DRes.bind (fixName fuel bytestr d dict) fun r => .ok (.ptr r.1, r.2)
  | .minfo mi =>
    DRes.bind (fixName fuel bytestr mi.rmailbox dict) fun r1 =>
    DRes.bind (fixName fuel bytestr mi.emailbox r1.2) fun r2 =>
    .ok (.minfo { rmailbox := r1.1, emailbox := r2.1 }, r2.2)
  | .mx m =>
    DRes.bind (fixName fuel bytestr m.exchange dict) fun r =>
    .ok (.mx { m with exchange := r.1 }, r.2)
  | .soa s =>
    DRes.bind (fixName fuel bytestr s.mname dict) fun r1 =>
    DRes.bind (fixName fuel bytestr s.rname r1.2) fun r2 =>
    .ok (.soa { s with mname := r1.1, rname := r2.1 }, r2.2)
  | other => .ok (other, dict)

/-- src/dns.rs `fix_record`: dereference the owner name, then the
name-bearing rdata fields. -/
def fixRecord (fuel : Nat) (bytestr : List Nat) (r : ResourceRecord) (dict : Dict) :
    DRes (ResourceRecord × Dict) :=
  DRes.bind (fixName fuel bytestr r.name dict) fun rn =>
  DRes.bind (fixRdata fuel bytestr r.rdata rn.2) fun rr =>
  .ok ({ r with name := rn.1, rdata := rr.1 }, rr.2)

/-- The question loop of src/dns.rs `parse_dns_message_full`: a qname is
dereferenced only when it is `Pointer` or `LabelWithPointer`. -/
def fixQuestion (fuel : Nat) (bytestr : List Nat) (q : Query) (dict : Dict) :
    DRes (Query × Dict) :=
  match q.qname with
  | .pointer _ =>
    DRes.bind (fixName fuel bytestr q.qname dict) fun r => .ok ({ q with qname := r.1 }, r.2)
  | .labelWithPointer _ _ =>
    DRes.bind (fixName fuel bytestr q.qname dict) fun r => .ok ({ q with qname := r.1 }, r.2)
  | .labels _ => .ok (q, dict)

/-- Iterate `fixQuestion` over the question section, threading the memo
dictionary. -/
def fixQuestions (fuel : Nat) (bytestr : List Nat) : List Query → Dict →
    DRes (List Query × Dict)
  | [], dict => .ok ([], dict)
  | q :: qs, dict =>
    DRes.bind (fixQuestion fuel bytestr q dict) fun r =>
    DRes.bind (fixQuestions fuel bytestr qs r.2) fun rs =>
    .ok (r.1 :: rs.1, rs.2)

/-- Iterate `fixRecord` over a record section, threading the memo
dictionary. -/
def fixRecords (fuel : Nat) (bytestr : List Nat) : List ResourceRecord → Dict →
    DRes (List ResourceRecord × Dict)
  | [], dict => .ok ([], dict)
  | r :: rs, dict =>
    DRes.bind (fixRecord fuel bytestr r dict) fun r1 =>
    DRes.bind (fixRecords fuel bytestr rs r1.2) fun rest =>
    .ok (r1.1 :: rest.1, rest.2)

/-- src/dns.rs `parse_dns_message_full`: assemble the message, then
rewrite pointer names across all four sections using one fresh memo
dictionary.  A non-`Done` assembly result is returned unchanged (the
resolution closure is only mapped over `Done`). -/
def parseDnsMessageFull (fuel : Nat) (bytestr : List Nat) : DRes (PResult Message) :=
  match parseDnsMessage bytestr with
  | .done rest msg =>
    DRes.bind (fixQuestions fuel bytestr msg.questions []) fun qs =>
    DRes.bind (fixRecords fuel bytestr msg.answers qs.2) fun ans =>
    DRes.bind (fixRecords fuel bytestr msg.authorities ans.2) fun auth =>
    DRes.bind (fixRecords fuel bytestr msg.additional auth.2) fun addl =>
    .ok (.done rest { msg with questions := qs.1, answers := ans.1,
                               authorities := auth.1, additional := addl.1 })
  | .incomplete => .ok .incomplete
  | .error => .ok .error
  | .panic => .ok .panic

/-! ## IPv4 (src/ipv4.rs) -/

/-- src/ipv4.rs `Ipv4Protocol`. -/
inductive Ipv4Protocol where
  | icmp
  | igmp
  | ggp
  | ip
  | st
  | tcp
  | ucl
  | egp
  | igp
  | bbnRccMon
  | nvpII
  | pup
  | argus
  | emcon
  | xnet
  | chaos
  | udp
  | mux
  | dcnMeas
  | hmp
  | prm
  | xndIdp
  | trunk1
  | trunk2
  | leaf1
  | leaf2
  | rdp
  | irtp
  | isoTp4
  | netblt
  | mfeNsp
  | meritInp
  | sep
  | threePC
  | idpr
  | xtp
  | ddp
  | idprCmtp
  | tpPlusPlus
  | il
  | sip
  | sdrp
  | sipSr
  | sipFrag
  | idrp
  | rsvp
  | gre
  | mhrp
  | bna
  | sippEsp
  | sippAh
  | iNlsp
  | swipe
  | nhrp
  | cftp
  | satExpak
  | kryptolan
  | rvd
  | ippc
  | satMon
  | visa
  | ipcv
  | cpnx
  | cphb
  | wsn
  | pvp
  | brSatMon
  | sunNd
  | wbMon
  | wbExpak
  | isoIp
  | vmtp
  | secureVmtp
  | vines
  | ttp
  | nsfnetIgp
  | dgp
  | tcf
  | igrp
  | ospfigp
  | spriteRpc
  | larp
  | mtp
  | ax25
  | ipip
  | micp
  | sccSp
  | etherip
  | encap
  | gmtp
  | other : Nat → Ipv4Protocol
  deriving Repr

/-- src/ipv4.rs `Ipv4Protocol::from_u8`. -/
def Ipv4Protocol.fromU8 (v : Nat) : Ipv4Protocol :=
  match v with
  | 1 => .icmp
  | 2 => .igmp
  | 3 => .ggp
  | 4 => .ip
  | 5 => .st
  | 6 => .tcp
  | 7 => .ucl
  | 8 => .egp
  | 9 => .igp
  | 10 => .bbnRccMon
  | 11 => .nvpII
  | 12 => .pup
  | 13 => .argus
  | 14 => .emcon
  | 15 => .xnet
  | 16 => .chaos
  | 17 => .udp
  | 18 => .mux
  | 19 => .dcnMeas
  | 20 => .hmp
  | 21 => .prm
  | 22 => .xndIdp
  | 23 => .trunk1
  | 24 => .trunk2
  | 25 => .leaf1
  | 26 => .leaf2
  | 27 => .rdp
  | 28 => .irtp
  | 29 => .isoTp4
  | 30 => .netblt
  | 31 => .mfeNsp
  | 32 => .meritInp
  | 33 => .sep
  | 34 => .threePC
  | 35 => .idpr
  | 36 => .xtp
  | 37 => .ddp
  | 38 => .idprCmtp
  | 39 => .tpPlusPlus
  | 40 => .il
  | 41 => .sip
  | 42 => .sdrp
  | 43 => .sipSr
  | 44 => .sipFrag
  | 45 => .idrp
  | 46 => .rsvp
  | 47 => .gre
  | 48 => .mhrp
  | 49 => .bna
  | 50 => .sippEsp
  | 51 => .sippAh
  | 52 => .iNlsp
  | 53 => .swipe
  | 54 => .nhrp
  | 62 => .cftp
  | 64 => .satExpak
  | 65 => .kryptolan
  | 66 => .rvd
  | 67 => .ippc
  | 69 => .satMon
  | 70 => .visa
  | 71 => .ipcv
  | 72 => .cpnx
  | 73 => .cphb
  | 74 => .wsn
  | 75 => .pvp
  | 76 => .brSatMon
  | 77 => .sunNd
  | 78 => .wbMon
  | 79 => .wbExpak
  | 80 => .isoIp
  | 81 => .vmtp
  | 82 => .secureVmtp
  | 83 => .vines
  | 84 => .ttp
  | 85 => .nsfnetIgp
  | 86 => .dgp
  | 87 => .tcf
  | 88 => .igrp
  | 89 => .ospfigp
  | 90 => .spriteRpc
  | 91 => .larp
  | 92 => .mtp
  | 93 => .ax25
  | 94 => .ipip
  | 95 => .micp
  | 96 => .sccSp
  | 97 => .etherip
  | 98 => .encap
  | 100 => .gmtp
  | x => .other x

/-- src/ipv4.rs `Flags`. -/
structure Flags where
  df : Bool
  mf : Bool
  deriving Repr, DecidableEq

/-- src/ipv4.rs `Ipv4Option`. -/
inductive Ipv4Option where
  | endOfOption
  | noOperation
  | other : Nat → Nat → List Nat → Ipv4Option
  | dummy
  deriving Repr, DecidableEq

/-- Loop body of src/ipv4.rs `parse_options` (`many_till!`).  Each
iteration first tries the terminator `alt!(test_eof | char!(0))`
(yielding `Dummy` at end of input or `EndOfOption` on a zero byte), then
the item parser `alt!(test_eof | char!(1) → NoOperation | TLV)`.  The
TLV length is `u8` arithmetic `length - 2`, which wraps (release
semantics), modelled as `(length + 254) % 256`.  A successful item
consumes at least one byte, so fuel `bs.length + 1` is enough.  Returns
the item list together with the terminating value. -/
def ipv4OptionsGo : Nat → List Nat → PResult (List Ipv4Option × Ipv4Option)
  | 0, _ => .error
  | fuel + 1, bs =>
    match bs with
    | [] => .done [] ([], .dummy)
    | 0 :: rest => .done rest ([], .endOfOption)
    | 1 :: rest =>
        pbind (ipv4OptionsGo fuel rest) (fun rest2 p => .done rest2 (.noOperation :: p.1, p.2))
    | cls :: rest =>
      match rest with
      | [] => .incomplete
      | len :: rest2 =>
        let dlen := (len + 254) % 256
        if dlen ≤ rest2.length then
          pbind (ipv4OptionsGo fuel (rest2.drop dlen))
            (fun rest3 p => .done rest3 (.other cls len (rest2.take dlen) :: p.1, p.2))
        else .incomplete

/-- src/ipv4.rs `parse_options`: run the `many_till!` loop, push the
terminating value, and filter out `Dummy`. -/
def ipv4ParseOptions (bs : List Nat) : PResult (List Ipv4Option) :=
  pbind (ipv4OptionsGo (bs.length + 1) bs) fun rest p =>
    .done rest ((p.1 ++ [p.2]).filter (fun o => o ≠ .dummy))

/-- src/ipv4.rs `Header` (named `Ipv4Header` here; the DNS header
already uses the name `Header`). -/
structure Ipv4Header where
  len : Nat
  dscp : Nat
  ecn : Nat
  totalLen : Nat
  id : Nat
  flags : Flags
  fragmentOff : Nat
  ttl : Nat
  proto : Ipv4Protocol
  checksum : Nat
  sourceIp : List Nat
  dstIp : List Nat
  options : List Ipv4Option
  deriving Repr

/-- src/ipv4.rs `parse_ipv4_header`: version nibble tagged `0b0100`,
header-length nibble, dscp/ecn, the fixed fields, then
`cond!(len > 5, parse_options)` — the options parser, when the
header-length nibble exceeds 5, runs on all remaining input. -/
def parseIpv4Header (bs : List Nat) : PResult Ipv4Header :=
  match bs with
  | b1 :: b2 :: bs2 =>
    if b1 >>> 4 = 4 then
      pbind (beU16 bs2) fun bs3 totalLen =>
      pbind (beU16 bs3) fun bs4 id =>
      match bs4 with
      | f1 :: f2 :: bs5 =>
        if f1 >>> 7 = 0 then
          pbind (beU8 bs5) fun bs6 ttl =>
          pbind (beU8 bs6) fun bs7 proto =>
          pbind (beU16 bs7) fun bs8 checksum =>
          pbind (takeBytes 4 bs8) fun bs9 source =>
          pbind (takeBytes 4 bs9) fun bs10 dst =>
          pbind (if b1 &&& 15 > 5
                 then pbind (ipv4ParseOptions bs10) (fun r os => .done r (some os))
                 else .done bs10 none) fun bs11 options =>
          .done bs11
            { len := b1 &&& 15, dscp := b2 >>> 2, ecn := b2 &&& 3,
              totalLen := totalLen, id := id,
              flags := { df := (f1 >>> 6) &&& 1 = 1, mf := (f1 >>> 5) &&& 1 = 1 },
              fragmentOff := (f1 &&& 31) * 256 + f2,
              ttl := ttl, proto := Ipv4Protocol.fromU8 proto, checksum := checksum,
              sourceIp := source, dstIp := dst,
              options := options.getD [] }
        else .error
      | _ => .incomplete
    else .error
  | _ => .incomplete

/-- src/ipv4.rs `Ipv4Packet`. -/
structure Ipv4Packet where
  header : Ipv4Header
  body : List Nat
  deriving Repr

/-- src/ipv4.rs `parse_ipv4_packet`: on header success, the body starts
at byte `min(4*len, bs.len())` of the original buffer and the returned
remaining input is empty. -/
def parseIpv4Packet (bs : List Nat) : PResult Ipv4Packet :=
  match parseIpv4Header bs with
  | .done _ header => .done [] { header := header, body := bs.drop (min (4 * header.len) bs.length) }
  | .incomplete => .incomplete
  | .error => .error
  | .panic => .panic

/-! ## IPv6 (src/ipv6.rs) -/

/-- src/ipv6.rs `Ipv6HeaderType`. -/
inductive Ipv6HeaderType where
  | hopByHopOptions
  | routing
  | fragment
  | destinationOptions
  | noNext
  | ipv4 : Ipv4Protocol → Ipv6HeaderType
  deriving Repr

/-- src/ipv6.rs `Ipv6HeaderType::from_u8`. -/
def Ipv6HeaderType.fromU8 (v : Nat) : Ipv6HeaderType :=
  match v with
  | 0 => .hopByHopOptions
  | 43 => .routing
  | 44 => .fragment
  | 60 => .destinationOptions
  | 59 => .noNext
  | _ => .ipv4 (Ipv4Protocol.fromU8 v)

/-- src/ipv6.rs `has_next_header`: true exactly for the four extension
kinds. -/
def hasNextHeader (ht : Ipv6HeaderType) : Bool :=
  match ht with
  | .ipv4 _ => false
  | .noNext => false
  | _ => true

/-- src/ipv6.rs `Ipv6Option`. -/
inductive Ipv6Option where
  | opt : Nat → Nat → List Nat → Ipv6Option
  | padding0
  | padding1
  | dummy
  deriving Repr, DecidableEq

/-- Loop body of src/ipv6.rs `parse_options` (`many_till!` whose
terminator `eoo_check` succeeds exactly at end of input).  The item
parser is `alt!(eoo_check | char!(0) → Padding0 | char!(1) TLV →
Padding1 | TLV → Opt)`; TLV lengths are wrapping `u8` arithmetic
`len - 2`, modelled `(len + 254) % 256`.  A successful item consumes at
least one byte, so fuel `bs.length + 1` is enough. -/
def ipv6OptionsGo : Nat → List Nat → PResult (List Ipv6Option)
  | 0, _ => .error
  | fuel + 1, bs =>
    match bs with
    | [] => .done [] []
    | 0 :: rest =>
        pbind (ipv6OptionsGo fuel rest) (fun rest2 os => .done rest2 (.padding0 :: os))
    | 1 :: rest =>
      match rest with
      | [] => .incomplete
      | len :: rest2 =>
        let dlen := (len + 254) % 256
        if dlen ≤ rest2.length then
          pbind (ipv6OptionsGo fuel (rest2.drop dlen))
            (fun rest3 os => .done rest3 (.padding1 :: os))
        else .incomplete
    | typ :: rest =>
      match rest with
      | [] => .incomplete
      | len :: rest2 =>
        let dlen := (len + 254) % 256
        if dlen ≤ rest2.length then
          pbind (ipv6OptionsGo fuel (rest2.drop dlen))
            (fun rest3 os => .done rest3 (.opt typ len (rest2.take dlen) :: os))
        else .incomplete

/-- src/ipv6.rs `parse_options`: runs on `&bs[..min(bs.len(), len)]`,
appends the terminator's `Dummy` and filters `Dummy` back out. -/
def ipv6ParseOptions (bs : List Nat) (len : Nat) : PResult (List Ipv6Option) :=
  let input := bs.take (min bs.length len)
  pbind (ipv6OptionsGo (input.length + 1) input) fun rest os =>
    .done rest ((os ++ [Ipv6Option.dummy]).filter fun o =>
      match o with
      | .dummy => false
      | _ => true)

/-- src/ipv6.rs `Ipv6HeaderData`. -/
inductive Ipv6HeaderData where
  | hopByHopOptions : List Ipv6Option → Ipv6HeaderData
  | routing : Nat → Nat → List Nat → Ipv6HeaderData
  | fragment : Nat → Bool → Nat → Ipv6HeaderData
  | destinationOptions : List Ipv6Option → Ipv6HeaderData
  | noNext
  deriving Repr

/-- src/ipv6.rs `Ipv6Extension`. -/
structure Ipv6Extension where
  inner : Ipv6HeaderData
  len : Nat
  nextHeader : Ipv6HeaderType
  deriving Repr

/-- src/ipv6.rs `parse_hop`: guarded by the header type
(`cond_reduce!` fails with `Error` on a mismatch); the extension length
is wrapping `u8` arithmetic `8*len + 6`; the option list is parsed with
`peek!` and the span then consumed with `take!`. -/
def parseHop (bs : List Nat) (ht : Ipv6HeaderType) : PResult Ipv6Extension :=
  match ht with
  | .hopByHopOptions =>
    pbind (beU8 bs) fun bs1 nextHeader =>
    pbind (beU8 bs1) fun bs2 len =>
    pbind (ipv6ParseOptions bs2 ((8 * len + 6) % 256)) fun _ options =>
    pbind (takeBytes ((8 * len + 6) % 256) bs2) fun bs3 _ =>
    .done bs3 { inner := .hopByHopOptions options, len := len,
                nextHeader := Ipv6HeaderType.fromU8 nextHeader }
  | _ => .error

/-- src/ipv6.rs `parse_routing`. -/
def parseRouting (bs : List Nat) (ht : Ipv6HeaderType) : PResult Ipv6Extension :=
  match ht with
  | .routing =>
    pbind (beU8 bs) fun bs1 nextHeader =>
    pbind (beU8 bs1) fun bs2 len =>
    pbind (beU8 bs2) fun bs3 routingType =>
    pbind (beU8 bs3) fun bs4 segmentsLeft =>
    pbind (takeBytes ((8 * len + 4) % 256) bs4) fun bs5 routingData =>
    .done bs5 { inner := .routing routingType segmentsLeft routingData, len := len,
                nextHeader := Ipv6HeaderType.fromU8 nextHeader }
  | _ => .error

/-- src/ipv6.rs `parse_fragment`: a skipped byte, a 13-bit fragment
offset, two skipped bits, the last-fragment bit, then the 32-bit id. -/
def parseFragment (bs : List Nat) (ht : Ipv6HeaderType) : PResult Ipv6Extension :=
  match ht with
  | .fragment =>
    pbind (beU8 bs) fun bs1 nextHeader =>
    pbind (beU8 bs1) fun bs2 _ =>
    match bs2 with
    | c1 :: c2 :: bs3 =>
      pbind (beU32 bs3) fun bs4 id =>
      .done bs4 { inner := .fragment (c1 * 32 + (c2 >>> 3)) (c2 &&& 1 = 1) id, len := 2,
                  nextHeader := Ipv6HeaderType.fromU8 nextHeader }
    | _ => .incomplete
  | _ => .error

/-- src/ipv6.rs `parse_destination`. -/
def parseDestination (bs : List Nat) (ht : Ipv6HeaderType) : PResult Ipv6Extension :=
  match ht with
  | .destinationOptions =>
    pbind (beU8 bs) fun bs1 nextHeader =>
    pbind (beU8 bs1) fun bs2 len =>
    pbind (ipv6ParseOptions bs2 ((8 * len + 6) % 256)) fun _ options =>
    pbind (takeBytes ((8 * len + 6) % 256) bs2) fun bs3 _ =>
    .done bs3 { inner := .destinationOptions options, len := len,
                nextHeader := Ipv6HeaderType.fromU8 nextHeader }
  | _ => .error

/-- src/ipv6.rs `parse_ipv6_extension`: `alt!` over the four guarded
extension parsers (only the branch matching the header type can
succeed). -/
def parseIpv6Extension (bs : List Nat) (ht : Ipv6HeaderType) : PResult Ipv6Extension :=
  match parseHop bs ht with
  | .error =>
    match parseRouting bs ht with
    | .error =>
      match parseFragment bs ht with
      | .error => parseDestination bs ht
      | r => r
    | r => r
  | r => r

/-- src/ipv6.rs `parse_extensions`: the chain-walking `while
has_next_header` loop, with explicit fuel (`none` marks fuel
exhaustion); each iteration decodes one extension and continues from its
embedded next-header code, and a failed iteration aborts with that
failure. -/
def parseExtensions (fuel : Nat) (bs : List Nat) (ht : Ipv6HeaderType) :
    Option (PResult (List Ipv6Extension)) :=
  match fuel with
  | 0 => if hasNextHeader ht then none else some (.done bs [])
  | fuel + 1 =>
    if hasNextHeader ht then
      match parseIpv6Extension bs ht with
      | .done bs2 ext =>
        (parseExtensions fuel bs2 ext.nextHeader).map fun r =>
          match r with
          | .done rest exts => .done rest (ext :: exts)
          | other => other
      | .incomplete => some .incomplete
      | .error => some .error
      | .panic => some .panic
    else some (.done bs [])

/-- src/ipv6.rs `slice2addr`: eight big-endian 16-bit groups from a
16-byte slice (the fourth group reads byte 6 twice, as in the source). -/
def slice2addr (ip : List Nat) : List Nat :=
  [256 * ip.getD 0 0 + ip.getD 1 0,
   256 * ip.getD 2 0 + ip.getD 3 0,
   256 * ip.getD 4 0 + ip.getD 5 0,
   256 * ip.getD 6 0 + ip.getD 6 0,
   256 * ip.getD 8 0 + ip.getD 9 0,
   256 * ip.getD 10 0 + ip.getD 11 0,
   256 * ip.getD 12 0 + ip.getD 13 0,
   256 * ip.getD 14 0 + ip.getD 15 0]

/-- src/ipv6.rs `Ipv6Header` (addresses kept as the eight 16-bit groups
produced by `slice2addr`). -/
structure Ipv6Header where
  trafficClass : Nat
  flowLabel : Nat
  payloadLength : Nat
  nextHeader : Ipv6HeaderType
  hopLimit : Nat
  srcIp : List Nat
  dstIp : List Nat
  deriving Repr

/-- src/ipv6.rs `parse_ipv6_header`: version nibble tagged 6, 8-bit
traffic class, 20-bit flow label, then the fixed fields. -/
def parseIpv6Header (bs : List Nat) : PResult Ipv6Header :=
  match bs with
  | b1 :: b2 :: b3 :: b4 :: bs1 =>
    if b1 >>> 4 = 6 then
      pbind (beU16 bs1) fun bs2 payloadLength =>
      pbind (beU8 bs2) fun bs3 nextHeader =>
      pbind (beU8 bs3) fun bs4 hopLimit =>
      pbind (takeBytes 16 bs4) fun bs5 src =>
      pbind (takeBytes 16 bs5) fun bs6 dst =>
      .done bs6 { trafficClass := (b1 &&& 15) * 16 + (b2 >>> 4),
                  flowLabel := (b2 &&& 15) * 65536 + b3 * 256 + b4,
                  payloadLength := payloadLength,
                  nextHeader := Ipv6HeaderType.fromU8 nextHeader,
                  hopLimit := hopLimit,
                  srcIp := slice2addr src, dstIp := slice2addr dst }
    else .error
  | _ => .incomplete

/-- src/ipv6.rs `Ipv6Packet`. -/
structure Ipv6Packet where
  header : Ipv6Header
  extensions : List Ipv6Extension
  body : List Nat
  deriving Repr

/-- src/ipv6.rs `parse_ipv6_packet`: header, then `flat_map!` of the
extension chain and `rest` over the `payload_length`-byte span (the fuel
bounds the extension loop as in `parseExtensions`). -/
def parseIpv6Packet (fuel : Nat) (bs : List Nat) : Option (PResult Ipv6Packet) :=
  match parseIpv6Header bs with
  | .done bs1 header =>
    if header.payloadLength ≤ bs1.length then
      match parseExtensions fuel (bs1.take header.payloadLength) header.nextHeader with
      | none => none
      | some (.done body exts) =>
          some (.done (bs1.drop header.payloadLength)
            { header := header, extensions := exts, body := body })
      | some .incomplete => some .incomplete
      | some .error => some .error
      | some .panic => some .panic
    else some .incomplete
  | .incomplete => some .incomplete
  | .error => some .error
  | .panic => some .panic

/-! ## TCP (src/tcp.rs) -/

/-- src/tcp.rs `TcpOption`. -/
inductive TcpOption where
  | dummyOption
  | endOfOptionList
  | noOperation
  | maximumSegmentSize : Nat → TcpOption
  | windowScale : Nat → TcpOption
  | timestamps : Nat → Nat → TcpOption
  | md5 : List Nat → TcpOption
  | other : Nat → Nat → List Nat → TcpOption
  deriving Repr, DecidableEq

/-- src/tcp.rs `TcpFlags`. -/
structure TcpFlags where
  offset : Nat
  ns : Bool
  cwr : Bool
  ece : Bool
  urg : Bool
  ack : Bool
  psh : Bool
  rst : Bool
  syn : Bool
  fin : Bool
  deriving Repr, DecidableEq

/-- src/tcp.rs `TcpPacket`. -/
structure TcpPacket where
  src : Nat
  dst : Nat
  seq : Nat
  ack : Nat
  flags : TcpFlags
  windowSz : Nat
  checksum : Nat
  urgent : Nat
  options : List TcpOption
  body : List Nat
  deriving Repr, DecidableEq

/-- The generic `kind, len, take!(len - 2)` fallback branch of
src/tcp.rs `known_options`; `len - 2` is wrapping `u8` arithmetic,
modelled `(len + 254) % 256`. -/
def tcpOtherOption (bs : List Nat) : PResult TcpOption :=
  match bs with
  | kind :: len :: rest =>
    let dlen := (len + 254) % 256
    if dlen ≤ rest.length then .done (rest.drop dlen) (.other kind len (rest.take dlen))
    else .incomplete
  | _ => .incomplete

/-- src/tcp.rs `known_options`: `alt!` over end-of-input (`DummyOption`),
no-op, the three fixed-shape options and the generic TLV fallback.  A
fixed-shape branch whose second tag byte is missing yields `Incomplete`
(nom's `alt!` does not try further branches after `Incomplete`); a
mismatched second tag byte falls through to the generic branch. -/
def knownOptions (bs : List Nat) : PResult TcpOption :=
  match bs with
  | [] => .done [] .dummyOption
  | 1 :: rest => .done rest .noOperation
  | 2 :: rest =>
    match rest with
    | [] => .incomplete
    | 4 :: rest2 =>
        pbind (beU16 rest2) (fun rest3 sz => .done rest3 (.maximumSegmentSize sz))
    | _ => tcpOtherOption bs
  | 3 :: rest =>
    match rest with
    | [] => .incomplete
    | 3 :: rest2 =>
        pbind (beU8 rest2) (fun rest3 shift => .done rest3 (.windowScale shift))
    | _ => tcpOtherOption bs
  | 8 :: rest =>
    match rest with
    | [] => .incomplete
    | 10 :: rest2 =>
        pbind (beU32 rest2) fun rest3 tsVal =>
        pbind (beU32 rest3) fun rest4 tsEcr =>
        .done rest4 (.timestamps tsVal tsEcr)
    | _ => tcpOtherOption bs
  | _ => tcpOtherOption bs

/-- Loop body of src/tcp.rs `parse_options` (`many_till!(known_options,
end_of_options)`).  The terminator `end_of_options` is
`alt!(char!(0) | eof_check)`: a zero byte ends the list; at end of input
`char!(0)` is `Incomplete`, so the loop falls through to
`known_options`, whose zero-byte-consuming `DummyOption` success then
trips nom's must-consume guard and errors.  Fuel `bs.length + 1` is
enough since every accepted item consumes at least one byte. -/
def tcpOptionsGo : Nat → List Nat → PResult (List TcpOption × TcpOption)
  | 0, _ => .error
  | fuel + 1, bs =>
    match bs with
    | 0 :: rest => .done rest ([], .endOfOptionList)
    | _ =>
      match knownOptions bs with
      | .done rest o =>
        if rest.length = bs.length then .error
        else pbind (tcpOptionsGo fuel rest) (fun rest2 p => .done rest2 (o :: p.1, p.2))
      | .incomplete => .incomplete
      | .error => .error
      | .panic => .panic

/-- src/tcp.rs `parse_options`: slices `&bs[0..len]` — a Rust panic when
`len` exceeds the remaining length — then runs the `many_till!` loop,
pushes the terminator and filters `DummyOption` out. -/
def tcpParseOptions (bs : List Nat) (len : Nat) : PResult (List TcpOption) :=
  if len ≤ bs.length then
    pbind (tcpOptionsGo (len + 1) (bs.take len)) fun rest p =>
      .done rest ((p.1 ++ [p.2]).filter (fun o => o ≠ .dummyOption))
  else .panic

/-- src/tcp.rs `parse_tcp_packet`: the fixed 20-byte prefix with the
data-offset nibble and flag bits, then
`cond!(offset > 5, parse_options(4*offset - 20))`, and a body slice
`&bs[4*offset..]` of the original buffer (a Rust panic when `4*offset`
exceeds the buffer length). -/
def parseTcpPacket (bs : List Nat) : PResult TcpPacket :=
  pbind (beU16 bs) fun bs1 src =>
  pbind (beU16 bs1) fun bs2 dst =>
  pbind (beU32 bs2) fun bs3 seq =>
  pbind (beU32 bs3) fun bs4 ack =>
  match bs4 with
  | b1 :: b2 :: bs5 =>
    if (b1 >>> 1) &&& 7 = 0 then
      pbind (beU16 bs5) fun bs6 sz =>
      pbind (beU16 bs6) fun bs7 sum =>
      pbind (beU16 bs7) fun bs8 urgent =>
      pbind (if b1 >>> 4 > 5
             then pbind (tcpParseOptions bs8 (4 * (b1 >>> 4) - 20)) (fun r os => .done r (some os))
             else .done bs8 none) fun bs9 options =>
      if 4 * (b1 >>> 4) ≤ bs.length then
        .done bs9
          { src := src, dst := dst, seq := seq, ack := ack,
            flags := { offset := b1 >>> 4, ns := b1 &&& 1 = 1,
                       cwr := b2 >>> 7 = 1, ece := (b2 >>> 6) &&& 1 = 1,
                       urg := (b2 >>> 5) &&& 1 = 1, ack := (b2 >>> 4) &&& 1 = 1,
                       psh := (b2 >>> 3) &&& 1 = 1, rst := (b2 >>> 2) &&& 1 = 1,
                       syn := (b2 >>> 1) &&& 1 = 1, fin := b2 &&& 1 = 1 },
            windowSz := sz, checksum := sum, urgent := urgent,
            options := options.getD [], body := bs.drop (4 * (b1 >>> 4)) }
      else .panic
    else .error
  | _ => .incomplete

/-! ## Concrete message fixtures used by the claims -/

/-- The DNS query fixture from the repository's `test_query`. -/
def dnsTestQuery : List Nat :=
  [0x24, 0x1a, 0x01, 0x00, 0x00, 0x01, 0x00, 0x00,
   0x00, 0x00, 0x00, 0x00, 0x03, 0x77, 0x77, 0x77,
   0x06, 0x67, 0x6f, 0x6f, 0x67, 0x6c, 0x65, 0x03,
   0x63, 0x6f, 0x6d, 0x00, 0x00, 0x01, 0x00, 0x01]

/-- The decoded form of `dnsTestQuery`. -/
def dnsTestQueryMsg : Message :=
  { header := { id := 9242, qr := .query, opcode := .query, aa := false, tc := false,
                rd := true, ra := false, rcode := .noError,
                qdcount := 1, ancount := 0, nscount := 0, arcount := 0 },
    questions := [{ qname := .labels [[119, 119, 119], [103, 111, 111, 103, 108, 101], [99, 111, 109]],
                    qtype := .type .a, qclass := .cls .inet }],
    answers := [], authorities := [], additional := [] }

/-- A syntactically valid message whose question name is a compression
pointer to offset 0x3FFF, far beyond the 18-byte buffer. -/
def dnsMsgOutOfRange : List Nat :=
  [0, 0, 0, 0, 0, 1, 0, 0, 0, 0, 0, 0, 0xFF, 0xFF, 0, 1, 0, 1]

/-- An acyclic, fully resolvable compressed message: the question name
is label `a` followed by a pointer to offset 21 (0x15); the name at
offset 21 is a pointer to offset 23 (0x17); the name at offset 23 is the
plain label list `b`. -/
def dnsMsgChained : List Nat :=
  [0, 0, 0, 0, 0, 1, 0, 0, 0, 0, 0, 0,
   0x01, 0x61, 0xC0, 0x15, 0, 1, 0, 1,
   0x00, 0xC0, 0x17, 0x01, 0x62, 0x00]

/-- A message whose question name points at offset 18, where a pointer
to offset 20 sits, which in turn points back to offset 18: a two-node
pointer cycle. -/
def dnsMsgCycle : List Nat :=
  [0, 0, 0, 0, 0, 1, 0, 0, 0, 0, 0, 0,
   0xC0, 0x12, 0, 1, 0, 1,
   0xC0, 0x14, 0xC0, 0x12]

/-- The memo dictionary state reached inside the resolution loop on
`dnsMsgCycle` once both cycle offsets have been parsed. -/
def cycleDict : Dict := [(20, .pointer 18), (18, .pointer 20)]

/-- A resource record with type A and declared RDATA length 5: one more
byte than the four the A body consumes. -/
def rrTypeASlack : List Nat := [0x00, 0, 1, 0, 1, 0, 0, 0, 0, 0, 5, 1, 2, 3, 4, 5]

/-- A resource record with type A and declared RDATA length 2: too few
bytes for the A body, an internal body failure. -/
def rrTypeAShort : List Nat := [0x00, 0, 1, 0, 1, 0, 0, 0, 0, 0, 2, 1, 2]

/-- A DNS header whose rcode nibble is 15. -/
def dnsHeaderRcode15 : List Nat := [0, 0, 0x00, 0x0F, 0, 0, 0, 0, 0, 0, 0, 0]

/-- An IPv4 header with IHL 6 followed by eight no-op option bytes and
nothing else: the options walk consumes all eight bytes, twice the
4-byte span the IHL nibble declares. -/
def ipv4IhlSixBuf : List Nat :=
  [0x46, 0, 0, 28, 0, 0, 0, 0, 64, 6, 0, 0, 1, 2, 3, 4, 5, 6, 7, 8,
   1, 1, 1, 1, 1, 1, 1, 1]

/-- The decoded form of `ipv4IhlSixBuf`. -/
def ipv4IhlSixHdr : Ipv4Header :=
  { len := 6, dscp := 0, ecn := 0, totalLen := 28, id := 0,
    flags := { df := false, mf := false }, fragmentOff := 0, ttl := 64,
    proto := .tcp, checksum := 0, sourceIp := [1, 2, 3, 4], dstIp := [5, 6, 7, 8],
    options := List.replicate 8 .noOperation }

/-- A minimal 20-byte IPv4 header with IHL 5 and no further bytes. -/
def ipv4IhlFiveBuf : List Nat :=
  [0x45, 0, 0, 20, 0, 0, 0, 0, 64, 6, 0, 0, 1, 2, 3, 4, 5, 6, 7, 8]

/-- The decoded form of `ipv4IhlFiveBuf`. -/
def ipv4IhlFiveHdr : Ipv4Header :=
  { len := 5, dscp := 0, ecn := 0, totalLen := 20, id := 0,
    flags := { df := false, mf := false }, fragmentOff := 0, ttl := 64,
    proto := .tcp, checksum := 0, sourceIp := [1, 2, 3, 4], dstIp := [5, 6, 7, 8],
    options := [] }

/-- A 20-byte TCP segment whose data-offset nibble is 6, so the declared
option span (4 bytes) and body offset (24) lie past the buffer end. -/
def tcpShortBuf : List Nat :=
  [0, 0, 0, 0, 0, 0, 0, 0, 0, 0, 0, 0, 0x60, 0, 0, 0, 0, 0, 0, 0]

/-- An IPv6 byte span holding one hop-by-hop extension (next header 17,
UDP; length 0, six option bytes: one two-byte PadN then two Pad1s). -/
def ipv6OneHopBuf : List Nat := [17, 0, 1, 4, 0, 0, 0, 0]

/-- The single extension decoded from `ipv6OneHopBuf`. -/
def ipv6OneHopExt : Ipv6Extension :=
  { inner := .hopByHopOptions [.padding1, .padding0, .padding0], len := 0,
    nextHeader := .ipv4 .udp }

/-- A successfully decoded extension chain: starting at `bs` with
current header type `ht`, each link is one successful
`parseIpv6Extension` decode whose embedded next-header code drives the
next link, ending the first time the type is a non-extension
(upper-layer protocol or no-next-header); `exts` lists the links in
chain order and `rest` is the remaining input. -/
inductive ExtChainDone : List Nat → Ipv6HeaderType → List Ipv6Extension → List Nat → Prop where
  | nil : ∀ bs ht, hasNextHeader ht = false → ExtChainDone bs ht [] bs
  | cons : ∀ bs ht bs2 ext exts rest, hasNextHeader ht = true →
      parseIpv6Extension bs ht = .done bs2 ext →
      ExtChainDone bs2 ext.nextHeader exts rest →
      ExtChainDone bs ht (ext :: exts) rest

/-- The assembled (pre-resolution) form of `dnsMsgChained`: the question
name is the hybrid `LabelWithPointer([a], 21)`. -/
def dnsMsgChainedMsg : Message :=
  { header := { id := 0, qr := .query, opcode := .query, aa := false, tc := false,
                rd := false, ra := false, rcode := .noError,
                qdcount := 1, ancount := 0, nscount := 0, arcount := 0 },
    questions := [{ qname := .labelWithPointer [[0x61]] 21,
                    qtype := .type .a, qclass := .cls .inet }],
    answers := [], authorities := [], additional := [] }

/-! ## Helper lemmas -/

@[simp] theorem pbind_done {α β : Type} (rest : List Nat) (a : α)
    (f : List Nat → α → PResult β) : pbind (.done rest a) f = f rest a := rfl

@[simp] theorem pbind_incomplete {α β : Type} (f : List Nat → α → PResult β) :
    pbind (.incomplete : PResult α) f = .incomplete := rfl

@[simp] theorem pbind_error {α β : Type} (f : List Nat → α → PResult β) :
    pbind (.error : PResult α) f = .error := rfl

@[simp] theorem pbind_panic {α β : Type} (f : List Nat → α → PResult β) :
    pbind (.panic : PResult α) f = .panic := rfl

@[simp] theorem DRes.bind_ok {α β : Type} (a : α) (f : α → DRes β) :
    DRes.bind (.ok a) f = f a := rfl

@[simp] theorem DRes.bind_panic {α β : Type} (f : α → DRes β) :
    DRes.bind (.panic : DRes α) f = .panic := rfl

@[simp] theorem DRes.bind_outOfFuel {α β : Type} (f : α → DRes β) :
    DRes.bind (.outOfFuel : DRes α) f = .outOfFuel := rfl

/-- Inversion for `pbind`: a successful sequence means the first step
succeeded and the continuation succeeded on its output. -/
theorem pbind_eq_done {α β : Type} {r : PResult α} {f : List Nat → α → PResult β}
    {rest : List Nat} {b : β} (h : pbind r f = .done rest b) :
    ∃ r1 a, r = .done r1 a ∧ f r1 a = .done rest b := by
  cases r with
  | done r1 a => exact ⟨r1, a, rfl, h⟩
  | incomplete => exact absurd h (by simp)
  | error => exact absurd h (by simp)
  | panic => exact absurd h (by simp)

/-- A successful `countP p n` returns exactly `n` items. -/
theorem countP_length {α : Type} (p : List Nat → PResult α) :
    ∀ n bs rest as, countP p n bs = .done rest as → as.length = n := by
  intro n
  induction n with
  | zero =>
    intro bs rest as h
    unfold countP at h
    injection h with h1 h2
    subst h2
    rfl
  | succ n ih =>
    intro bs rest as h
    unfold countP at h
    cases hp : p bs with
    | done r a =>
      rw [hp] at h
      obtain ⟨r2, as2, hc, h⟩ := pbind_eq_done h
      injection h with h1 h2
      subst h2
      simp [ih r r2 as2 hc]
    | incomplete => rw [hp] at h; exact absurd h (by simp)
    | error => rw [hp] at h; exact absurd h (by simp)
    | panic => rw [hp] at h; exact absurd h (by simp)

/-! ## The claims -/

/-- C1: the spec's failure policy says a pointer offset at or beyond the
end of the original buffer makes resolution of that one field fail
gracefully, leaving the field unresolved.  The code instead slices
`&bytestr[off..]` unguarded, which panics for offsets beyond the buffer:
on `dnsMsgOutOfRange` (question name is a pointer to offset 0x3FFF in an
18-byte message) the resolution pass panics instead of returning the
message with the field unresolved. -/
theorem C1_out_of_range_pointer_panics :
    parseDnsMessageFull 5 dnsMsgOutOfRange = .panic := rfl

/-- C3 counterexample: a type-A record with declared RDATA length 5.
The A body consumes only four of the five bytes of its span, yet the
record decode succeeds, silently dropping the fifth byte from the
decoded value — the claim says it must fail as Malformed. -/
theorem C3_counterexample :
    resourceRecord rrTypeASlack =
      .done [] { name := .labels [], typ := .a, cls := .inet, ttl := 0,
                 rdata := .a [1, 2, 3, 4] } := rfl

/-- C3 amended: a body decode that fails its own internal grammar with a
hard error surfaces as record failure with no partial record (first
conjunct); but a known body that consumes less than its declared span
succeeds with the unused trailing bytes silently ignored (second
conjunct: type A keeps exactly the first four bytes of any span of at
least four); and a body that runs out of bytes inside its span panics
(nom's `to_result` on `Incomplete`) rather than failing as Malformed
(third conjunct). -/
theorem C3_amended :
    (∀ bs bs1 bs2 bs3 bs4 bs5 (name : DomainName) (typ : DnsType) (cls : DnsClass)
        (ttl rdlen : Nat),
      domainName bs = .done bs1 name → parseType bs1 = .done bs2 typ →
      parseClass bs2 = .done bs3 cls → beU32 bs3 = .done bs4 ttl →
      beU16 bs4 = .done bs5 rdlen → rdlen ≤ bs5.length →
      Rdata.from typ (bs5.take rdlen) = .ok none →
      resourceRecord bs = .error)
    ∧ (∀ raw : List Nat, 4 ≤ raw.length → Rdata.from .a raw = .ok (some (.a (raw.take 4))))
    ∧ Rdata.from .ns [5] = .panic := by
  refine ⟨?_, ?_, rfl⟩
  · intro bs bs1 bs2 bs3 bs4 bs5 name typ cls ttl rdlen h1 h2 h3 h4 h5 h6 h7
    unfold resourceRecord
    rw [h1]
    simp only [pbind_done]
    rw [h2]
    simp only [pbind_done]
    rw [h3]
    simp only [pbind_done]
    rw [h4]
    simp only [pbind_done]
    rw [h5]
    simp only [pbind_done]
    unfold takeBytes
    rw [if_pos h6]
    simp only [pbind_done]
    rw [h7]
  · intro raw h4
    simp [Rdata.from, h4]

/-- C3 witness: a type-A record with declared RDATA length 2; the A body
fails internally (fewer than four bytes) and the record decode fails. -/
theorem C3_witness : resourceRecord rrTypeAShort = .error :=
  C3_amended.1 rrTypeAShort [0, 1, 0, 1, 0, 0, 0, 0, 0, 2, 1, 2]
    [0, 1, 0, 0, 0, 0, 0, 2, 1, 2] [0, 0, 0, 0, 0, 2, 1, 2] [0, 2, 1, 2] [1, 2]
    (.labels []) .a .inet 0 2 rfl rfl rfl rfl rfl (by decide) rfl

/-- C4 counterexample: the claim says a length byte with top bits 01 or
10 makes the name Malformed, and that every leading byte at or above
0xC0 is interpreted with its successor as a pointer.  But byte 0x40 (top
bits 01) is accepted as an ordinary 64-byte label length, and the
two-byte value 0xC0 0x00 (which would be a pointer to offset 0) is
rejected outright since the pointer grammar requires the 16-bit value to
strictly exceed 0xC000. -/
theorem C4_counterexample :
    domainName (0x40 :: (List.replicate 64 7 ++ [0])) =
      .done [] (.labels [List.replicate 64 7])
    ∧ domainName [0xC0, 0x00, 0x01, 0x02, 0x03] = .error := ⟨rfl, rfl⟩

/-- C4 amended: any byte below 0xC0 — top bits 00, 01 or 10 alike — is a
label length (first conjunct), a byte at or above 0xC0 is never a label
length (second conjunct), a leading 16-bit value strictly above 0xC000
is a pointer whose offset is the value with the top two bits stripped,
hence below 0x4000 (third conjunct), and the boundary value exactly
0xC000 is rejected by the whole name grammar (fourth conjunct). -/
theorem C4_amended :
    (∀ (b : Nat) (rest : List Nat), b < 0xC0 → b ≤ rest.length →
      label (b :: rest) = .done (rest.drop b) (rest.take b))
    ∧ (∀ (b : Nat) (rest : List Nat), 0xC0 ≤ b → label (b :: rest) = .error)
    ∧ (∀ (b1 b2 : Nat) (rest : List Nat), 256 * b1 + b2 > 0xC000 →
      pointer (b1 :: b2 :: rest) = .done rest (.pointer ((256 * b1 + b2) &&& 0x3FFF))
      ∧ (256 * b1 + b2) &&& 0x3FFF < 0x4000)
    ∧ (∀ rest : List Nat, domainName (0xC0 :: 0x00 :: rest) = .error) := by
  refine ⟨?_, ?_, ?_, ?_⟩
  · intro b rest hb hlen
    simp [label, hb, hlen]
  · intro b rest hb
    simp [label, Nat.not_lt.2 hb]
  · intro b1 b2 rest hgt
    refine ⟨by simp [pointer, hgt], ?_⟩
    exact lt_of_le_of_lt (Nat.and_le_right) (by norm_num)
  · intro rest
    simp [domainName, labelsP, labelsGo, label, pointer, labelWithPointer, lwpGo, pbind]

/-- C4 witness: the amended grammar facts at concrete bytes — length
byte 1 taking one byte, length byte 0xC0 rejected by the label grammar,
pointer bytes 0xC0 0x0C giving offset 12 below 0x4000, and the boundary
bytes 0xC0 0x00 rejected by the name grammar. -/
theorem C4_witness :
    label [1, 5] = .done [] [5]
    ∧ label [0xC0, 1, 2] = .error
    ∧ (pointer [0xC0, 0x0C] = .done [] (.pointer 12) ∧ (256 * 0xC0 + 0x0C) &&& 0x3FFF < 0x4000)
    ∧ domainName [0xC0, 0x00] = .error := by
  refine ⟨C4_amended.1 1 [5] (by decide) (by decide),
          C4_amended.2.1 0xC0 [1, 2] (by decide), ?_, C4_amended.2.2.2 []⟩
  have h := C4_amended.2.2.1 0xC0 0x0C [] (by decide)
  exact ⟨by rw [h.1]; rfl, h.2⟩

/-- C5: whenever `parse_dns_message` succeeds, the four section lengths
equal the header's count fields (first conjunct), and a failing question
section aborts the whole message decode with an error rather than a
partial message (second conjunct). -/
theorem C5_section_counts :
    (∀ bs rest msg, parseDnsMessage bs = .done rest msg →
      msg.questions.length = msg.header.qdcount
      ∧ msg.answers.length = msg.header.ancount
      ∧ msg.authorities.length = msg.header.nscount
      ∧ msg.additional.length = msg.header.arcount)
    ∧ (∀ bs bs1 h, parseDnsHeader bs = .done bs1 h →
      countP query h.qdcount bs1 = .error → parseDnsMessage bs = .error) := by
  constructor
  · intro bs rest msg h
    unfold parseDnsMessage at h
    obtain ⟨bs1, hd, hh, h⟩ := pbind_eq_done h
    obtain ⟨bs2, qs, hq, h⟩ := pbind_eq_done h
    obtain ⟨bs3, ans, ha, h⟩ := pbind_eq_done h
    obtain ⟨bs4, auth, hn, h⟩ := pbind_eq_done h
    obtain ⟨bs5, addl, hr, h⟩ := pbind_eq_done h
    injection h with h1 h2
    subst h2
    exact ⟨countP_length _ _ _ _ _ hq, countP_length _ _ _ _ _ ha,
           countP_length _ _ _ _ _ hn, countP_length _ _ _ _ _ hr⟩
  · intro bs bs1 h hh hcq
    unfold parseDnsMessage
    rw [hh]
    simp only [pbind_done]
    rw [hcq]
    rfl

/-- C5 witness: the repository's own query fixture decodes successfully
and its section lengths match the header counts. -/
theorem C5_witness :
    parseDnsMessage dnsTestQuery = .done [] dnsTestQueryMsg
    ∧ dnsTestQueryMsg.questions.length = dnsTestQueryMsg.header.qdcount
    ∧ dnsTestQueryMsg.answers.length = dnsTestQueryMsg.header.ancount
    ∧ dnsTestQueryMsg.authorities.length = dnsTestQueryMsg.header.nscount
    ∧ dnsTestQueryMsg.additional.length = dnsTestQueryMsg.header.arcount :=
  ⟨by decide, C5_section_counts.1 dnsTestQuery [] dnsTestQueryMsg (by decide)⟩

/-- C6 counterexample: the claim says opcode values at or above 16 and
rcode values at or above 15 are accepted as reserved-numeric.  The code
rejects both: `Opcode::from(16)` and `Rcode::from(15)` are `None`, and a
header whose rcode nibble is 15 fails to decode. -/
theorem C6_counterexample :
    Opcode.from 16 = none ∧ Rcode.from 15 = none
    ∧ parseDnsHeader dnsHeaderRcode15 = .error := ⟨rfl, rfl, rfl⟩

/-- C6 amended: opcode values at or above 16 and rcode values at or
above 15 are rejected, failing the header decode; values inside the
reserved numeric ranges below those bounds (opcode 3–15, rcode 5–14)
are retained with an explicit `Reserved` tag. -/
theorem C6_amended :
    (∀ i, 16 ≤ i → Opcode.from i = none)
    ∧ (∀ i, 15 ≤ i → Rcode.from i = none)
    ∧ (∀ i, 3 ≤ i → i < 16 → Opcode.from i = some (.reserved i))
    ∧ (∀ i, 5 ≤ i → i < 15 → Rcode.from i = some (.reserved i)) := by
  refine ⟨?_, ?_, ?_, ?_⟩
  · intro i hi
    unfold Opcode.from
    split
    · omega
    · omega
    · omega
    · rw [if_neg (by omega)]
  · intro i hi
    unfold Rcode.from
    split
    · omega
    · omega
    · omega
    · omega
    · omega
    · rw [if_neg (by omega)]
  · intro i h3 h16
    unfold Opcode.from
    split
    · omega
    · omega
    · omega
    · rw [if_pos h16]
  · intro i h5 h15
    unfold Rcode.from
    split
    · omega
    · omega
    · omega
    · omega
    · omega
    · rw [if_pos h15]

/-- C6 witness: the amended boundaries at concrete values — opcode 16
and rcode 15 rejected, opcode 3 and rcode 5 retained as reserved. -/
theorem C6_witness :
    Opcode.from 16 = none ∧ Rcode.from 15 = none
    ∧ Opcode.from 3 = some (.reserved 3) ∧ Rcode.from 5 = some (.reserved 5) :=
  ⟨C6_amended.1 16 (by decide), C6_amended.2.1 15 (by decide),
   C6_amended.2.2.1 3 (by decide) (by decide), C6_amended.2.2.2 5 (by decide) (by decide)⟩

/-- C10: a 20-byte TCP segment whose data-offset nibble is 6 declares a
4-byte option span past the end of the buffer; `parse_tcp_packet` slices
`&bs[0..4]` out of the empty remainder and panics instead of returning
Incomplete. -/
theorem C10_truncated_offset_panics : parseTcpPacket tcpShortBuf = .panic := rfl

/-- A value `some d` that the resolution loop stops on is a `Labels`
value. -/
theorem shouldRecurse_false_some {d : DomainName} (h : shouldRecurse (some d) = false) :
    ∃ ls, d = .labels ls := by
  cases d with
  | labels ls => exact ⟨ls, rfl⟩
  | pointer off => simp [shouldRecurse] at h
  | labelWithPointer l off => simp [shouldRecurse] at h

/-- The resolution loop is the identity on an already-resolved `Labels`
value, at any fuel. -/
theorem domainDerefLoop_labels (buf : List Nat) (l : List Label) :
    ∀ fuel dict, domainDerefLoop buf fuel (some (.labels l)) dict = .ok (some (.labels l), dict) := by
  intro fuel dict
  cases fuel with
  | zero => rfl
  | succ n => rfl

/-- Whatever the resolution loop returns successfully is a `Labels`
value. -/
theorem domainDerefLoop_ok_labels (buf : List Nat) :
    ∀ fuel out dict out2 dict2,
      domainDerefLoop buf fuel out dict = .ok (some out2, dict2) → ∃ ls, out2 = .labels ls := by
  intro fuel
  induction fuel with
  | zero =>
    intro out dict out2 dict2 h
    unfold domainDerefLoop at h
    by_cases hs : shouldRecurse out
    · rw [if_pos hs] at h
      exact absurd h (by simp)
    · rw [if_neg hs] at h
      injection h with h1
      have hout : out = some out2 := congrArg Prod.fst h1
      subst hout
      exact shouldRecurse_false_some (Bool.of_not_eq_true hs)
  | succ n ih =>
    intro out dict out2 dict2 h
    unfold domainDerefLoop at h
    by_cases hs : shouldRecurse out
    · rw [if_pos hs] at h
      cases out with
      | none => exact ih none dict out2 dict2 h
      | some d =>
        have h2 : DRes.bind (derefHelper d dict buf)
            (fun r => domainDerefLoop buf n r.1 r.2) = .ok (some out2, dict2) := h
        cases hd : derefHelper d dict buf with
        | ok r =>
          rw [hd] at h2
          simp only [DRes.bind_ok] at h2
          exact ih r.1 r.2 out2 dict2 h2
        | panic => rw [hd] at h2; exact absurd h2 (by simp [DRes.bind])
        | outOfFuel => rw [hd] at h2; exact absurd h2 (by simp [DRes.bind])
    · rw [if_neg hs] at h
      injection h with h1
      have hout : out = some out2 := congrArg Prod.fst h1
      subst hout
      exact shouldRecurse_false_some (Bool.of_not_eq_true hs)

/-- C2 counterexample: `dnsMsgChained` is well formed and acyclic — its
question name is `LabelWithPointer([a], 21)`, the name at offset 21 is a
pointer to offset 23 (second conjunct), and the name at offset 23 is the
plain label list `[b]` (third conjunct) — yet after the resolution pass
the question name is still the `LabelWithPointer` variant (first
conjunct): `deref_helper` refuses to chase a chain behind a
`LabelWithPointer`, so the claim that every name-bearing field of an
acyclic message resolves to `Labels` fails. -/
theorem C2_counterexample :
    parseDnsMessageFull 16 dnsMsgChained
      = .ok (.done [0x00, 0xC0, 0x17, 0x01, 0x62, 0x00] dnsMsgChainedMsg)
    ∧ domainName (dnsMsgChained.drop 21) = .done [0x01, 0x62, 0x00] (.pointer 23)
    ∧ domainName (dnsMsgChained.drop 23) = .done [] (.labels [[0x62]]) := ⟨rfl, rfl, rfl⟩

/-- C2 amended: any field the resolution pass successfully rewrites is a
pure `Labels` value (first conjunct); and a `LabelWithPointer(ls, off)`
resolves — to `ls` followed by the target labels, memoizing the target —
exactly when the freshly decoded name at `off` is itself directly a
`Labels` value (second conjunct); chains behind a `LabelWithPointer`
are not chased, so such fields are otherwise left unresolved even in
acyclic messages. -/
theorem C2_amended :
    (∀ (fuel : Nat) (d : DomainName) (dict : Dict) (buf : List Nat)
        (out : DomainName) (dict2 : Dict),
      domainDeref fuel d dict buf = .ok (some out, dict2) → ∃ ls, out = .labels ls)
    ∧ (∀ (ls : List Label) (off : Nat) (buf : List Nat) (ls2 : List Label)
        (rest : List Nat) (dict : Dict) (fuel : Nat),
      dictLookup dict off = none → off ≤ buf.length →
      domainName (buf.drop off) = .done rest (.labels ls2) →
      domainDeref fuel (.labelWithPointer ls off) dict buf
        = .ok (some (.labels (ls ++ ls2)), dictInsert dict off (.labels ls2))) := by
  constructor
  · intro fuel d dict buf out dict2 h
    unfold domainDeref at h
    cases hd : derefHelper d dict buf with
    | ok r =>
      rw [hd] at h
      simp only [DRes.bind_ok] at h
      exact domainDerefLoop_ok_labels buf fuel r.1 r.2 out dict2 h
    | panic => rw [hd] at h; exact absurd h (by simp [DRes.bind])
    | outOfFuel => rw [hd] at h; exact absurd h (by simp [DRes.bind])
  · intro ls off buf ls2 rest dict fuel hlk hoff hdn
    simp only [domainDeref, derefHelper, hlk, hoff, hdn, if_true, DRes.bind_ok]
    exact domainDerefLoop_labels buf (ls ++ ls2) fuel (dictInsert dict off (.labels ls2))

/-- C2 witness: on the buffer `[0,0,1,97+1,0]` the hybrid name
`LabelWithPointer([a], 2)` resolves to the spliced labels `[a, b]`, and
the resolved value is a `Labels` value. -/
theorem C2_witness :
    domainDeref 3 (.labelWithPointer [[97]] 2) [] [0, 0, 1, 98, 0]
      = .ok (some (.labels [[97], [98]]), dictInsert [] 2 (.labels [[98]]))
    ∧ ∃ ls, DomainName.labels [[97], [98]] = .labels ls :=
  have h := C2_amended.2 [[97]] 2 [0, 0, 1, 98, 0] [[98]] [] [] 3 rfl (by decide) rfl
  ⟨h, C2_amended.1 3 (.labelWithPointer [[97]] 2) [] [0, 0, 1, 98, 0]
    (.labels [[97], [98]]) (dictInsert [] 2 (.labels [[98]])) h⟩

/-- On the cyclic message the resolution loop alternates forever between
the two cycle pointers once both are memoized: at every fuel it runs
out rather than terminating. -/
theorem cycleLoop_outOfFuel :
    ∀ n, domainDerefLoop dnsMsgCycle n (some (.pointer 18)) cycleDict = .outOfFuel
      ∧ domainDerefLoop dnsMsgCycle n (some (.pointer 20)) cycleDict = .outOfFuel := by
  intro n
  induction n with
  | zero => exact ⟨rfl, rfl⟩
  | succ n ih => exact ⟨ih.2, ih.1⟩

/-- C7: on `dnsMsgCycle` (whose question name points into a two-pointer
cycle) the pointer-resolution pass of `parse_dns_message_full` never
terminates: for every fuel bound the modelled resolution loop exceeds
it.  The memo dictionary, once it holds both cycle offsets, feeds the
loop the same two pointers forever. -/
theorem C7_cycle_nonterminating :
    ∀ fuel, parseDnsMessageFull fuel dnsMsgCycle = .outOfFuel := by
  intro fuel
  cases fuel with
  | zero => rfl
  | succ n =>
    have hd : domainDeref (n + 1) (.pointer 18) [] dnsMsgCycle = .outOfFuel := by
      show domainDerefLoop dnsMsgCycle n (some (.pointer 18)) cycleDict = .outOfFuel
      exact (cycleLoop_outOfFuel n).1
    have hfix : fixName (n + 1) dnsMsgCycle (.pointer 18) [] = .outOfFuel := by
      unfold fixName
      rw [hd]
    have hp : parseDnsMessage dnsMsgCycle =
        .done [192, 20, 192, 18]
          { header := { id := 0, qr := .query, opcode := .query, aa := false, tc := false,
                        rd := false, ra := false, rcode := .noError,
                        qdcount := 1, ancount := 0, nscount := 0, arcount := 0 },
            questions := [{ qname := .pointer 18, qtype := .type .a, qclass := .cls .inet }],
            answers := [], authorities := [], additional := [] } := rfl
    unfold parseDnsMessageFull
    rw [hp]
    simp only [fixQuestions, fixQuestion, hfix, DRes.bind_outOfFuel]

/-- C8: whenever the chain of next-header codes reaches a non-extension
(upper-layer) code or the no-next-header marker after finitely many
successfully decoded links — the `ExtChainDone` hypothesis — the
extension loop terminates (any fuel bound at least the chain length
suffices for the modelled loop), returning exactly one extension record
per chain link, in chain order, with the input resumed after the last
link. -/
theorem C8_chain_terminates :
    ∀ bs ht exts rest, ExtChainDone bs ht exts rest →
      ∀ fuel, exts.length ≤ fuel → parseExtensions fuel bs ht = some (.done rest exts) := by
  intro bs ht exts rest hchain
  induction hchain with
  | nil bs2 ht2 hnx =>
    intro fuel hf
    cases fuel with
    | zero => simp [parseExtensions, hnx]
    | succ n => simp [parseExtensions, hnx]
  | cons bs2 ht2 bs3 ext exts2 rest2 hnx hparse hrec ih =>
    intro fuel hf
    cases fuel with
    | zero => simp at hf
    | succ n =>
      have hlen : exts2.length ≤ n := by simp at hf; omega
      simp [parseExtensions, hnx, hparse, ih n hlen]

/-- C8 witness: a one-link chain — a hop-by-hop extension whose embedded
next-header code is UDP — decodes with fuel 1 to exactly that one
record. -/
theorem C8_witness :
    parseExtensions 1 ipv6OneHopBuf .hopByHopOptions = some (.done [] [ipv6OneHopExt]) :=
  have hchain : ExtChainDone ipv6OneHopBuf .hopByHopOptions [ipv6OneHopExt] [] :=
    .cons _ _ _ _ _ _ rfl rfl (.nil _ _ rfl)
  C8_chain_terminates _ _ _ _ hchain 1 (by decide)

/-- C9 counterexample: on `ipv4IhlSixBuf` the header-length nibble is 6,
so the claim bounds the options decode at 4 bytes; but the decode
consumes all eight no-op bytes that follow the fixed header — the span
is bounded by the rest of the buffer, not by the nibble. -/
theorem C9_counterexample :
    parseIpv4Header ipv4IhlSixBuf = .done [] ipv4IhlSixHdr
    ∧ ipv4IhlSixHdr.len = 6 ∧ ipv4IhlSixHdr.options.length = 8 := ⟨rfl, rfl, rfl⟩

/-- C9 amended: the options list is decoded only when the header-length
nibble exceeds 5 — otherwise `options` is empty (first conjunct) — but
when it is decoded the walk runs over the rest of the buffer and can
consume more than the `4*(IHL-5)` bytes the nibble declares (second
conjunct). -/
theorem C9_amended :
    (∀ bs rest hdr, parseIpv4Header bs = .done rest hdr → hdr.len ≤ 5 → hdr.options = [])
    ∧ (∃ bs rest hdr, parseIpv4Header bs = .done rest hdr
        ∧ 4 * (hdr.len - 5) < hdr.options.length) := by
  constructor
  · intro bs rest hdr h hlen
    cases bs with
    | nil => exact absurd h (by simp [parseIpv4Header])
    | cons b1 t =>
      cases t with
      | nil => exact absurd h (by simp [parseIpv4Header])
      | cons b2 bs2 =>
        simp only [parseIpv4Header] at h
        by_cases hv : b1 >>> 4 = 4
        · rw [if_pos hv] at h
          obtain ⟨bs3, totalLen, h1, h⟩ := pbind_eq_done h
          obtain ⟨bs4, idv, h2, h⟩ := pbind_eq_done h
          split at h
          · split at h
            · obtain ⟨bs6, ttl, h3, h⟩ := pbind_eq_done h
              obtain ⟨bs7, proto, h4, h⟩ := pbind_eq_done h
              obtain ⟨bs8, checksum, h5, h⟩ := pbind_eq_done h
              obtain ⟨bs9, source, h6, h⟩ := pbind_eq_done h
              obtain ⟨bs10, dst, h7, h⟩ := pbind_eq_done h
              obtain ⟨bs11, options, hopt, h⟩ := pbind_eq_done h
              injection h with ha hb
              subst hb
              have hlen2 : b1 &&& 15 ≤ 5 := hlen
              rw [if_neg (by omega)] at hopt
              injection hopt with hr1 hr2
              subst hr2
              rfl
            · exact absurd h (by simp)
          · exact absurd h (by simp)
        · rw [if_neg hv] at h
          exact absurd h (by simp)
  · exact ⟨ipv4IhlSixBuf, [], ipv4IhlSixHdr, rfl, by decide⟩

/-- C9 witness: a minimal IHL-5 header decodes with an empty options
list. -/
theorem C9_witness :
    parseIpv4Header ipv4IhlFiveBuf = .done [] ipv4IhlFiveHdr ∧ ipv4IhlFiveHdr.options = [] :=
  ⟨rfl, C9_amended.1 ipv4IhlFiveBuf [] ipv4IhlFiveHdr rfl (by decide)⟩
